import Mathlib

/-!
A shallow embedding of the word-typing game server in `app.py` (the single
source file of the repository).  Python strings are modelled by Lean
`String`; Python `dict`s by association lists with first-key lookup;
Python `set`s by duplicate-free lists; the SQLite `games` table by an
association list from game id to state.  The only nondeterminism in the
source is `random.choice` (modelled by an extra `pick : Nat` argument that
selects an index into the candidate list) and `datetime.utcnow` (modelled
by an extra `ts : Nat` argument).  Floats (the `elapsed` field) are
modelled by the rationals.
-/

namespace WordGame

deriving instance DecidableEq for Except

/-- Python str.lower, restricted to the ASCII range used by the game. -/
def pyLower (s : String) : String := ⟨s.data.map Char.toLower⟩

/-- Python str.strip with no argument: remove leading and trailing whitespace. -/
def pyStrip (s : String) : String :=
  ⟨((s.data.dropWhile Char.isWhitespace).reverse.dropWhile Char.isWhitespace).reverse⟩

/-- WORD_POOLS from app.py, the five hard-coded round pools. -/
def WORD_POOLS : List (List String) := [
    ["cat", "dog", "bat"],
    ["frog", "tree", "lamp"],
    ["planet", "rocket", "python"],
    ["computer", "language", "keyboard"],
    ["adventure", "chocolate", "explosion"]
]

/-- TIMERS from app.py, the per-round time limits in seconds. -/
def TIMERS : List ℚ := [5, 4, 3, 2, 1]

/-- Lookup in a Python dict modelled as an association list, dict.get(k):
the value at the first entry with the given key. -/
def alGet? {β : Type} (l : List (String × β)) (k : String) : Option β :=
  match l with
  | [] => none
  | e :: rest => if e.1 = k then some e.2 else alGet? rest k

/-- Lookup with default, Python dict.get(k, d). -/
def alGetD {β : Type} (l : List (String × β)) (k : String) (d : β) : β :=
  (alGet? l k).getD d

/-- Python dict assignment d[k] = v: update the entry in place or append it. -/
def alSet {β : Type} (l : List (String × β)) (k : String) (v : β) : List (String × β) :=
  match l with
  | [] => [(k, v)]
  | e :: rest => if e.1 = k then (k, v) :: rest else e :: alSet rest k v

/-- Python dict.pop(k, None): drop the entry for k if present. -/
def alPop {β : Type} (l : List (String × β)) (k : String) : List (String × β) :=
  match l with
  | [] => []
  | e :: rest => if e.1 = k then rest else e :: alPop rest k

/-- Python set.add: insert an element unless already present. -/
def sAdd (l : List String) (x : String) : List String :=
  if x ∈ l then l else l ++ [x]

/-- A history entry, either a word assignment or a round advance (app.py
lines 172 and 222). -/
inductive HistEntry : Type
  | assign (round : Nat) (player word : String) (ts : Nat)
  | roundAdvance (newRound : Nat) (ts : Nat)
deriving DecidableEq, Repr

/-- The per-game session state serialized into one row of the games table. -/
structure GameState : Type where
  players : List String
  lives : List (String × Int)
  current_round : Nat
  turn_order : List String
  played_this_round : List String
  last_assigned_word : List (String × String)
  used_words_in_round : List String
  history : List HistEntry
  created_at : Nat
deriving DecidableEq, Repr

/-- Remaining life count of a player, state.lives.get(p, 0). -/
def livesGet (s : GameState) (p : String) : Int := alGetD s.lives p 0

/-- The alive roster as computed in app.py lines 140 and 217. -/
def aliveList (s : GameState) : List String :=
  s.players.filter (fun p => 0 < livesGet s p)

/-- Response of the create_game route (ignoring the echoed timers). -/
structure CreateResp : Type where
  game_id : String
  players : List String
deriving DecidableEq, Repr

/-- Response of the word route. -/
structure WordResp : Type where
  word : String
  round : Nat
  timer : ℚ
  player : String
  lives : List (String × Int)
  players : List String
  alive : List String
deriving DecidableEq, Repr

/-- Response of the submit route. -/
structure SubmitResp : Type where
  success : Bool
  expected : String
  typed : String
  timer : ℚ
  elapsed : ℚ
  lives : List (String × Int)
  current_round : Nat
  player : String
deriving DecidableEq, Repr

/-- Response of the status route. -/
structure StatusResp : Type where
  players : List String
  lives : List (String × Int)
  current_round : Nat
deriving DecidableEq, Repr

/-- The cleaned player list of create_game (app.py line 109):
strip every name, discarding entries that are empty or all whitespace. -/
def cleanPlayers (raw : List String) : List String :=
  raw.filterMap (fun p => if p ≠ "" ∧ pyStrip p ≠ "" then some (pyStrip p) else none)

/-- The create_game route (app.py lines 106-126) without the persistence
layer: validate the player list and build the fresh state. -/
def create_game (raw : List String) (ts : Nat) : Except String GameState :=
  let players := cleanPlayers raw
  if players.isEmpty then .error "No players given."
  else .ok {
    players := players,
    lives := players.foldl (fun l p => alSet l p 3) [],
    current_round := 0,
    turn_order := players,
    played_this_round := [],
    last_assigned_word := [],
    used_words_in_round := [],
    history := [],
    created_at := ts }

/-- The auto-assignment scan of app.py lines 147-157: first player in turn
order who is alive and holds no outstanding word, else first alive player. -/
def autoSelect (s : GameState) : Option String :=
  match s.turn_order.find? (fun p => decide (0 < livesGet s p) && (alGet? s.last_assigned_word p).isNone) with
  | some p => some p
  | none => s.turn_order.find? (fun p => decide (0 < livesGet s p))

/-- The guarded result of the auto-assignment scan: the final falsy-player
guard of app.py line 159 turns an empty name (or no candidate at all) into
the no-alive-players error. -/
def autoOrFail (s : GameState) : Except String String :=
  match autoSelect s with
  | some p => if p = "" then .error "No alive players." else .ok p
  | none => .error "No alive players."

/-- Player selection in the word route (app.py lines 139-160).  A present
but empty player parameter is falsy in Python and falls through to the
auto-assignment branch; an explicit player is stripped and must be a
non-eliminated member of the roster. -/
def selectPlayer (s : GameState) : Option String → Except String String
  | some p0 =>
    if p0 = "" then autoOrFail s
    else
      let p := pyStrip p0
      if p ∉ s.players ∨ livesGet s p ≤ 0 then .error "Player not valid or eliminated."
      else if p = "" then .error "No alive players."
      else .ok p
  | none => autoOrFail s


/-- Model of random.choice l for nonempty l: the element at index pick mod
the length. -/
def choiceOf (l : List String) (pick : Nat) : String := l.getD (pick % l.length) ""

/-- The pool of the current round, WORD_POOLS[round_idx] (app.py line 162). -/
def poolOf (s : GameState) : List String := WORD_POOLS.getD s.current_round []

/-- The unused candidates of app.py line 163: pool words not yet in
used_words_in_round. -/
def unusedOf (s : GameState) : List String :=
  (poolOf s).filter (fun w => w ∉ s.used_words_in_round)

/-- The list random.choice draws from (app.py lines 163-167): the unused
words, or the full pool after the mid-round reset when all are used. -/
def drawList (s : GameState) : List String :=
  if (unusedOf s).isEmpty then poolOf s else unusedOf s

/-- The used-word set right before the new word is added: cleared by the
mid-round reset of app.py line 165 when the pool is exhausted. -/
def usedBase (s : GameState) : List String :=
  if (unusedOf s).isEmpty then [] else s.used_words_in_round

/-- The word draw and state mutations of app.py lines 162-184: pick the
word, record the assignment, mark the word used, append a history entry
and build the response. -/
def assignWord (s : GameState) (player : String) (pick ts : Nat) : GameState × WordResp :=
  let word := choiceOf (drawList s) pick
  ({ s with
      last_assigned_word := alSet s.last_assigned_word player word,
      used_words_in_round := sAdd (usedBase s) word,
      history := s.history ++ [.assign s.current_round player word ts] },
   { word := word,
     round := s.current_round,
     timer := TIMERS.getD s.current_round 0,
     player := player,
     lives := s.lives,
     players := s.players,
     alive := aliveList s })

/-- The word route (app.py lines 128-184) without the persistence layer:
returns the updated state and the response, or an error. -/
def get_word (s : GameState) (playerParam : Option String) (pick ts : Nat) :
    Except String (GameState × WordResp) :=
  if WORD_POOLS.length ≤ s.current_round then .error "No more rounds."
  else
    match selectPlayer s playerParam with
    | .error e => .error e
    | .ok player => .ok (assignWord s player pick ts)

/-- The timer for a submitted round index (app.py line 208): the TIMERS
entry when the index is in range, else the last entry TIMERS[-1]. -/
def timerFor (round_idx : Int) : ℚ :=
  if 0 ≤ round_idx ∧ round_idx < (TIMERS.length : Int) then TIMERS.getD round_idx.toNat 0
  else TIMERS.getLastD 0

/-- The success test of app.py line 209: stripped, lowercased typed text
matches the lowercased expected word and the elapsed time is within the
timer. -/
def checkSuccess (typed expected : String) (elapsed : ℚ) (round_idx : Int) : Bool :=
  decide (pyLower (pyStrip typed) = pyLower expected) && decide (elapsed ≤ timerFor round_idx)

/-- The state mutations of app.py lines 211-215: on failure decrement the
life floored at 0, then mark the player as having played and clear the
outstanding word. -/
def applyOutcome (s : GameState) (player : String) (success : Bool) : GameState :=
  { s with
    lives := if success then s.lives else alSet s.lives player (max 0 (livesGet s player - 1)),
    played_this_round := sAdd s.played_this_round player,
    last_assigned_word := alPop s.last_assigned_word player }

/-- The round-completion test of app.py line 218: every currently-alive
player is in played_this_round. -/
def roundComplete (s : GameState) : Bool :=
  (aliveList s).all (fun p => p ∈ s.played_this_round)

/-- The round advance of app.py lines 219-222. -/
def advanceRound (ts : Nat) (s : GameState) : GameState :=
  { s with
    current_round := s.current_round + 1,
    played_this_round := [],
    used_words_in_round := [],
    history := s.history ++ [.roundAdvance (s.current_round + 1) ts] }

/-- The conditional round advance of app.py lines 217-222. -/
def maybeAdvance (ts : Nat) (s : GameState) : GameState :=
  if roundComplete s then advanceRound ts s else s

/-- The state mutations and response of app.py lines 207-235 once all the
checks have passed: evaluate the success test, apply the outcome, maybe
advance the round and build the response. -/
def submitUpdate (s : GameState) (player typed expected : String) (elapsed : ℚ)
    (roundParam : Option Int) (ts : Nat) : GameState × SubmitResp :=
  let round_idx : Int := roundParam.getD (s.current_round : Int)
  let success := checkSuccess typed expected elapsed round_idx
  let s2 := maybeAdvance ts (applyOutcome s player success)
  (s2, {
    success := success,
    expected := expected,
    typed := typed,
    timer := timerFor round_idx,
    elapsed := elapsed,
    lives := s2.lives,
    current_round := s2.current_round,
    player := player })

/-- The submit route (app.py lines 186-235) without the persistence layer. -/
def submit_word (s : GameState) (player typed : String) (elapsed : ℚ)
    (roundParam : Option Int) (ts : Nat) : Except String (GameState × SubmitResp) :=
  if player ∉ s.players then .error "Player not in game."
  else if livesGet s player ≤ 0 then .error "Player eliminated."
  else
    match alGet? s.last_assigned_word player with
    | none => .error "No assigned word for player (request /word first)."
    | some expected => .ok (submitUpdate s player typed expected elapsed roundParam ts)

/-- The status route (app.py lines 237-246), a read-only projection. -/
def statusOf (s : GameState) : StatusResp :=
  { players := s.players, lives := s.lives, current_round := s.current_round }

/-- The games table: one row per game id, modelled as an association list. -/
def Store : Type := List (String × GameState)

/-- load_game_state (app.py lines 72-90): the row for the id, if any. -/
def loadGame (st : Store) (gid : String) : Option GameState := alGet? st gid

/-- save_game_state (app.py lines 52-70): INSERT OR REPLACE of the row. -/
def saveGame (st : Store) (gid : String) (s : GameState) : Store := alSet st gid s

/-- The create_game route at the persistence level: on success the new row
is saved, on error the table is untouched. -/
def create_gameH (st : Store) (gid : String) (raw : List String) (ts : Nat) :
    Store × Except String CreateResp :=
  match create_game raw ts with
  | .error e => (st, .error e)
  | .ok s => (saveGame st gid s, .ok { game_id := gid, players := s.players })

/-- Commit the result of a route body: a successful run saves the updated
state and returns the response, an error run leaves the table untouched
(in app.py every error return precedes the save_game_state call). -/
def runSave {α : Type} (st : Store) (gid : String) :
    Except String (GameState × α) → Store × Except String α
  | .error e => (st, .error e)
  | .ok (s', r) => (saveGame st gid s', .ok r)

/-- The word route at the persistence level: every error return in app.py
lines 130-160 happens before the save on line 174. -/
def get_wordH (st : Store) (gid : String) (playerParam : Option String) (pick ts : Nat) :
    Store × Except String WordResp :=
  match loadGame st gid with
  | none => (st, .error "Game not found.")
  | some s => runSave st gid (get_word s playerParam pick ts)

/-- The submit route at the persistence level: every error return in app.py
lines 188-205 happens before the save on line 224. -/
def submit_wordH (st : Store) (gid : String) (player typed : String) (elapsed : ℚ)
    (roundParam : Option Int) (ts : Nat) : Store × Except String SubmitResp :=
  match loadGame st gid with
  | none => (st, .error "Game not found.")
  | some s => runSave st gid (submit_word s player typed elapsed roundParam ts)

/-- The status route at the persistence level: no save is performed. -/
def statusH (st : Store) (gid : String) : Store × Except String StatusResp :=
  match loadGame st gid with
  | none => (st, .error "Game not found.")
  | some s => (st, .ok (statusOf s))

/-- The history route (app.py lines 248-253) at the persistence level. -/
def historyH (st : Store) (gid : String) : Store × Except String (List HistEntry) :=
  match loadGame st gid with
  | none => (st, .error "Game not found.")
  | some s => (st, .ok s.history)

/-- A single state-mutating request against one session, for reasoning
about arbitrary operation sequences. -/
inductive Op : Type
  | assign (playerParam : Option String) (pick ts : Nat)
  | submit (player typed : String) (elapsed : ℚ) (roundParam : Option Int) (ts : Nat)

/-- Apply one request to a session: on an error response the stored state
is unchanged (the handlers save only on success). -/
def applyOp (s : GameState) : Op → GameState
  | .assign pp pick ts =>
    match get_word s pp pick ts with
    | .ok (s', _) => s'
    | .error _ => s
  | .submit p t e rp ts =>
    match submit_word s p t e rp ts with
    | .ok (s', _) => s'
    | .error _ => s

/-- Apply a sequence of requests to a session. -/
def applyOps (s : GameState) (ops : List Op) : GameState := ops.foldl applyOp s

/-- A placeholder state used only to destructure create_game results. -/
def deadState : GameState :=
  { players := [], lives := [], current_round := 0, turn_order := [], played_this_round := [],
    last_assigned_word := [], used_words_in_round := [], history := [], created_at := 0 }

/-- Extract the state from a successful create_game result. -/
def okState (e : Except String GameState) : GameState :=
  match e with
  | .ok s => s
  | .error _ => deadState

/-- One word request against a session, with all timestamps fixed to 0. -/
def stepWord (s : GameState) (pp : Option String) (pick : Nat) : GameState :=
  applyOp s (.assign pp pick 0)

/-- One submission against a session, with all timestamps fixed to 0. -/
def stepSubmit (s : GameState) (p t : String) (e : ℚ) : GameState :=
  applyOp s (.submit p t e none 0)

/-- A concrete two-player game produced by create_game. -/
def c0 : GameState := okState (create_game ["A", "B"] 0)

/-- Round 0: word for A (the pool word cat). -/
def c1 : GameState := stepWord c0 (some "A") 0

/-- Round 0: A types a wrong word and drops to 2 lives. -/
def c2 : GameState := stepSubmit c1 "A" "zzz" 1

/-- Round 0: word for B (the pool word dog). -/
def c3 : GameState := stepWord c2 (some "B") 0

/-- Round 0: B types the correct word; the round advances to 1. -/
def c4 : GameState := stepSubmit c3 "B" "dog" 1

/-- Round 1: word for A (the pool word frog). -/
def c5 : GameState := stepWord c4 (some "A") 0

/-- Round 1: A types a wrong word and drops to 1 life. -/
def c6 : GameState := stepSubmit c5 "A" "zzz" 1

/-- Round 1: word for B (the pool word tree). -/
def c7 : GameState := stepWord c6 (some "B") 0

/-- Round 1: B types the correct word; the round advances to 2. -/
def c8 : GameState := stepSubmit c7 "B" "tree" 1

/-- Round 2: word for A (the pool word planet). -/
def c9 : GameState := stepWord c8 (some "A") 0

/-- Round 2: A types a wrong word, drops to 0 lives and is eliminated;
the round does not advance because B has not played. -/
def c10 : GameState := stepSubmit c9 "A" "zzz" 1

/-- Round 2: word for B (the pool word rocket); A is still recorded in
played_this_round although no longer alive. -/
def c11 : GameState := stepWord c10 (some "B") 0

/-- The session created from a duplicated roster: the players list keeps
both copies of the name while the lives dict collapses them. -/
def c7dup : GameState :=
  { players := ["A", "A"], lives := [("A", 3)], current_round := 0,
    turn_order := ["A", "A"], played_this_round := [], last_assigned_word := [],
    used_words_in_round := [], history := [], created_at := 0 }

/-- A session whose current_round has run past the last pool. -/
def cExhaust : GameState :=
  { players := ["A"], lives := [("A", 3)], current_round := 5,
    turn_order := ["A"], played_this_round := [], last_assigned_word := [],
    used_words_in_round := [], history := [], created_at := 0 }

/-- The state after A transcribes the word cat correctly in the fresh
two-player game: A is marked played, the word is cleared, and the round
does not advance because B has not played. -/
def w1post : GameState :=
  { players := ["A", "B"], lives := [("A", 3), ("B", 3)], current_round := 0,
    turn_order := ["A", "B"], played_this_round := ["A"], last_assigned_word := [],
    used_words_in_round := ["cat"], history := [HistEntry.assign 0 "A" "cat" 0],
    created_at := 0 }

/-- The response to that successful submission. -/
def w1resp : SubmitResp :=
  { success := true, expected := "cat", typed := "cat", timer := 5, elapsed := 1,
    lives := [("A", 3), ("B", 3)], current_round := 0, player := "A" }

/-- A short operation sequence against the fresh game: a word for A and a
failed submission by A. -/
def c2ops : List Op := [Op.assign (some "A") 0 0, Op.submit "A" "zzz" 1 none 0]

/-- The response of the first word request for A in the fresh game. -/
def w5resp : WordResp :=
  { word := "cat", round := 0, timer := 5, player := "A",
    lives := [("A", 3), ("B", 3)], players := ["A", "B"], alive := ["A", "B"] }

/-- A one-row games table holding the fresh two-player game. -/
def st0 : Store := [("g", c0)]

/-- A one-row games table holding the exhausted game. -/
def stExhaust : Store := [("g", cExhaust)]

/-! Helper lemmas about the dict and set models. -/

theorem alGet?_alSet {β : Type} (l : List (String × β)) (k k' : String) (v : β) :
    alGet? (alSet l k v) k' = if k' = k then some v else alGet? l k' := by
  induction l with
  | nil =>
    show (if k = k' then some v else none) = if k' = k then some v else none
    by_cases h : k = k'
    · subst h; simp
    · rw [if_neg h, if_neg (fun hh => h hh.symm)]
  | cons e rest ih =>
    show alGet? (if e.1 = k then (k, v) :: rest else e :: alSet rest k v) k' = _
    by_cases he : e.1 = k
    · rw [if_pos he]
      show (if k = k' then some v else alGet? rest k') = _
      by_cases hk : k = k'
      · subst hk
        rw [if_pos rfl, if_pos rfl]
      · rw [if_neg hk, if_neg (fun hh => hk hh.symm)]
        show _ = if e.1 = k' then some e.2 else alGet? rest k'
        rw [if_neg (fun hh => hk (he ▸ hh))]
    · rw [if_neg he]
      show (if e.1 = k' then some e.2 else alGet? (alSet rest k v) k') = _
      by_cases hek : e.1 = k'
      · rw [if_pos hek, if_neg (fun hh => he (hek.trans hh)),
          show alGet? (e :: rest) k' = if e.1 = k' then some e.2 else alGet? rest k' from rfl,
          if_pos hek]
      · rw [if_neg hek, ih,
          show alGet? (e :: rest) k' = if e.1 = k' then some e.2 else alGet? rest k' from rfl,
          if_neg hek]

theorem alGetD_alSet {β : Type} (l : List (String × β)) (k k' : String) (v d : β) :
    alGetD (alSet l k v) k' d = if k' = k then v else alGetD l k' d := by
  unfold alGetD
  rw [alGet?_alSet]
  by_cases hk : k' = k <;> simp [hk]

theorem mem_sAdd (l : List String) (x y : String) : y ∈ sAdd l x ↔ y ∈ l ∨ y = x := by
  unfold sAdd
  by_cases hx : x ∈ l
  · rw [if_pos hx]
    constructor
    · exact fun h => .inl h
    · rintro (h | h)
      · exact h
      · exact h ▸ hx
  · rw [if_neg hx]
    simp

theorem sAdd_mem_self (l : List String) (x : String) : x ∈ sAdd l x :=
  (mem_sAdd l x x).mpr (.inr rfl)

theorem choiceOf_mem (l : List String) (pick : Nat) (h : l ≠ []) : choiceOf l pick ∈ l := by
  unfold choiceOf
  have hlen : 0 < l.length := List.length_pos.mpr h
  have hlt : pick % l.length < l.length := Nat.mod_lt _ hlen
  rw [List.getD_eq_getElem?_getD, List.getElem?_eq_getElem hlt]
  exact List.getElem_mem hlt

theorem pools_ne_nil : ∀ i, i < WORD_POOLS.length → WORD_POOLS.getD i [] ≠ [] := by decide

/-! Inversion lemmas for the route functions. -/

theorem autoSelect_alive {s : GameState} {q : String} (h : autoSelect s = some q) :
    q ∈ s.turn_order ∧ 0 < livesGet s q := by
  unfold autoSelect at h
  cases h1 : s.turn_order.find?
      (fun p => decide (0 < livesGet s p) && (alGet? s.last_assigned_word p).isNone) with
  | some p =>
    rw [h1] at h
    injection h with h
    subst h
    have hm := List.mem_of_find?_eq_some h1
    have hp := List.find?_some h1
    rw [Bool.and_eq_true, decide_eq_true_iff] at hp
    exact ⟨hm, hp.1⟩
  | none =>
    rw [h1] at h
    have hm := List.mem_of_find?_eq_some h
    have hp := List.find?_some h
    rw [decide_eq_true_iff] at hp
    exact ⟨hm, hp⟩

theorem autoOrFail_ok {s : GameState} {q : String}
    (h : autoOrFail s = .ok q) : autoSelect s = some q ∧ q ≠ "" := by
  unfold autoOrFail at h
  cases ha : autoSelect s with
  | none => simp [ha] at h
  | some p =>
    simp only [ha] at h
    by_cases hp : p = ""
    · simp [hp] at h
    · rw [if_neg hp] at h
      injection h with h
      subst h
      exact ⟨rfl, hp⟩

theorem selectPlayer_none_ok {s : GameState} {q : String}
    (h : selectPlayer s none = .ok q) : autoSelect s = some q ∧ q ≠ "" :=
  autoOrFail_ok h

theorem selectPlayer_empty_ok {s : GameState} {q : String}
    (h : selectPlayer s (some "") = .ok q) : autoSelect s = some q ∧ q ≠ "" := by
  have he : selectPlayer s (some "") = autoOrFail s := by
    simp [selectPlayer]
  rw [he] at h
  exact autoOrFail_ok h

theorem selectPlayer_some_ok {s : GameState} {p0 q : String} (hp0 : p0 ≠ "")
    (h : selectPlayer s (some p0) = .ok q) :
    q = pyStrip p0 ∧ q ∈ s.players ∧ 0 < livesGet s q := by
  simp only [selectPlayer] at h
  rw [if_neg hp0] at h
  by_cases hv : pyStrip p0 ∉ s.players ∨ livesGet s (pyStrip p0) ≤ 0
  · rw [if_pos hv] at h; exact absurd h (by simp)
  · rw [if_neg hv] at h
    push_neg at hv
    by_cases he : pyStrip p0 = ""
    · rw [if_pos he] at h; exact absurd h (by simp)
    · rw [if_neg he] at h
      injection h with h
      subst h
      exact ⟨rfl, hv.1, hv.2⟩

theorem selectPlayer_some_err {s : GameState} {p0 : String} (hp0 : p0 ≠ "")
    (hbad : pyStrip p0 ∉ s.players ∨ livesGet s (pyStrip p0) ≤ 0) :
    selectPlayer s (some p0) = .error "Player not valid or eliminated." := by
  simp only [selectPlayer]
  rw [if_neg hp0, if_pos hbad]

theorem selectPlayer_none_err {s : GameState}
    (h : ∀ q ∈ s.turn_order, livesGet s q ≤ 0) :
    selectPlayer s none = .error "No alive players." := by
  have h1 : s.turn_order.find?
      (fun p => decide (0 < livesGet s p) && (alGet? s.last_assigned_word p).isNone) = none := by
    rw [List.find?_eq_none]
    intro q hq
    rw [Bool.and_eq_true, decide_eq_true_iff]
    rintro ⟨h01, -⟩
    exact absurd (h q hq) (not_le.mpr h01)
  have h2 : s.turn_order.find? (fun p => decide (0 < livesGet s p)) = none := by
    rw [List.find?_eq_none]
    intro q hq
    rw [decide_eq_true_iff]
    exact fun h01 => absurd (h q hq) (not_le.mpr h01)
  show autoOrFail s = _
  unfold autoOrFail autoSelect
  rw [h1, h2]

theorem get_word_ok {s : GameState} {pp : Option String} {pick ts : Nat}
    {s' : GameState} {r : WordResp} (h : get_word s pp pick ts = .ok (s', r)) :
    s.current_round < WORD_POOLS.length ∧
    selectPlayer s pp = .ok r.player ∧
    (s', r) = assignWord s r.player pick ts := by
  unfold get_word at h
  by_cases h5 : WORD_POOLS.length ≤ s.current_round
  · rw [if_pos h5] at h; exact absurd h (by simp)
  · rw [if_neg h5] at h
    cases hsel : selectPlayer s pp with
    | error e => rw [hsel] at h; exact absurd h (by simp)
    | ok player =>
      rw [hsel] at h
      injection h with h
      have hr : r = (assignWord s player pick ts).2 := by rw [h]
      have hpl : r.player = player := by rw [hr]; simp [assignWord]
      subst hpl
      exact ⟨not_le.mp h5, rfl, h.symm⟩

theorem livesGet_applyOutcome (s : GameState) (player q : String) (suc : Bool) :
    livesGet (applyOutcome s player suc) q =
      if suc then livesGet s q
      else if q = player then max 0 (livesGet s player - 1) else livesGet s q := by
  cases suc with
  | true => simp [applyOutcome, livesGet]
  | false =>
    simp only [applyOutcome, Bool.false_eq_true, if_false, livesGet]
    show alGetD (alSet s.lives player (max 0 (livesGet s player - 1))) q 0 = _
    rw [alGetD_alSet]
    rfl

theorem roundComplete_iff (s : GameState) :
    roundComplete s = true ↔ ∀ q ∈ aliveList s, q ∈ s.played_this_round := by
  simp [roundComplete, List.all_eq_true]

theorem livesInit (ps : List String) (acc : List (String × Int)) (p : String) :
    alGetD (ps.foldl (fun l q => alSet l q 3) acc) p 0 =
      if p ∈ ps then 3 else alGetD acc p 0 := by
  induction ps generalizing acc with
  | nil => simp
  | cons a rest ih =>
    rw [List.foldl_cons, ih]
    by_cases hp : p ∈ rest
    · simp [hp]
    · rw [if_neg hp, alGetD_alSet]
      by_cases hpa : p = a
      · simp [hpa]
      · simp [hpa, hp]

theorem create_game_ok {raw : List String} {ts : Nat} {s : GameState}
    (h : create_game raw ts = .ok s) :
    cleanPlayers raw ≠ [] ∧
    s = { players := cleanPlayers raw,
          lives := (cleanPlayers raw).foldl (fun l p => alSet l p 3) [],
          current_round := 0, turn_order := cleanPlayers raw, played_this_round := [],
          last_assigned_word := [], used_words_in_round := [], history := [],
          created_at := ts } := by
  simp only [create_game] at h
  by_cases he : (cleanPlayers raw).isEmpty
  · rw [if_pos he] at h; exact absurd h (by simp)
  · rw [if_neg he] at h
    injection h with h
    exact ⟨fun hnil => he (List.isEmpty_iff.mpr hnil), h.symm⟩

theorem get_word_preserves {s : GameState} {pp : Option String} {pick ts : Nat}
    {s' : GameState} {r : WordResp} (h : get_word s pp pick ts = .ok (s', r)) :
    s'.lives = s.lives ∧ s'.players = s.players ∧ s'.turn_order = s.turn_order ∧
    s'.current_round = s.current_round ∧ s'.played_this_round = s.played_this_round := by
  obtain ⟨-, -, heq⟩ := get_word_ok h
  have hs : s' = (assignWord s r.player pick ts).1 := by rw [← heq]
  rw [hs]
  simp [assignWord]

theorem submit_word_ok {s : GameState} {player typed : String} {elapsed : ℚ}
    {rp : Option Int} {ts : Nat} {s' : GameState} {r : SubmitResp}
    (h : submit_word s player typed elapsed rp ts = .ok (s', r)) :
    player ∈ s.players ∧ 0 < livesGet s player ∧
    ∃ expected, alGet? s.last_assigned_word player = some expected ∧
      (s', r) = submitUpdate s player typed expected elapsed rp ts := by
  unfold submit_word at h
  by_cases h1 : player ∉ s.players
  · rw [if_pos h1] at h; exact absurd h (by simp)
  · rw [if_neg h1] at h
    by_cases h2 : livesGet s player ≤ 0
    · rw [if_pos h2] at h; exact absurd h (by simp)
    · rw [if_neg h2] at h
      cases hexp : alGet? s.last_assigned_word player with
      | none => rw [hexp] at h; exact absurd h (by simp)
      | some expected =>
        rw [hexp] at h
        injection h with h
        exact ⟨not_not.mp h1, not_le.mp h2, expected, rfl, h.symm⟩

theorem submitUpdate_state {s : GameState} {player typed expected : String} {elapsed : ℚ}
    {rp : Option Int} {ts : Nat} {s' : GameState} {r : SubmitResp}
    (h : (s', r) = submitUpdate s player typed expected elapsed rp ts) :
    s' = maybeAdvance ts
      (applyOutcome s player (checkSuccess typed expected elapsed (rp.getD (s.current_round : Int)))) := by
  have : s' = (submitUpdate s player typed expected elapsed rp ts).1 := by rw [← h]
  rw [this]
  simp [submitUpdate]

theorem maybeAdvance_lives (ts : Nat) (x : GameState) :
    (maybeAdvance ts x).lives = x.lives := by
  unfold maybeAdvance advanceRound
  split <;> rfl

theorem livesGet_maybeAdvance (ts : Nat) (x : GameState) (p : String) :
    livesGet (maybeAdvance ts x) p = livesGet x p := by
  unfold livesGet
  rw [maybeAdvance_lives]

theorem submit_word_dead {s : GameState} {player typed : String} {elapsed : ℚ}
    {rp : Option Int} {ts : Nat} (h : livesGet s player ≤ 0) :
    ∃ e, submit_word s player typed elapsed rp ts = Except.error e := by
  unfold submit_word
  by_cases h1 : player ∉ s.players
  · rw [if_pos h1]; exact ⟨_, rfl⟩
  · rw [if_neg h1, if_pos h]; exact ⟨_, rfl⟩

theorem livesNonneg_applyOp {s : GameState} (hs : ∀ p, 0 ≤ livesGet s p) (o : Op) :
    ∀ p, 0 ≤ livesGet (applyOp s o) p := by
  intro p
  cases o with
  | assign pp pick ts =>
    simp only [applyOp]
    cases hres : get_word s pp pick ts with
    | error e => exact hs p
    | ok pr =>
      obtain ⟨s2, r⟩ := pr
      have hl := (get_word_preserves hres).1
      show 0 ≤ livesGet s2 p
      unfold livesGet
      rw [hl]
      exact hs p
  | submit player typed elapsed rp ts =>
    simp only [applyOp]
    cases hres : submit_word s player typed elapsed rp ts with
    | error e => exact hs p
    | ok pr =>
      obtain ⟨s2, r⟩ := pr
      obtain ⟨-, -, expected, -, heq⟩ := submit_word_ok hres
      have hs2 := submitUpdate_state heq
      show 0 ≤ livesGet s2 p
      rw [hs2, livesGet_maybeAdvance, livesGet_applyOutcome]
      split
      · exact hs p
      · split
        · exact le_max_left _ _
        · exact hs p

theorem livesNonneg_applyOps {s : GameState} (hs : ∀ p, 0 ≤ livesGet s p) (ops : List Op) :
    ∀ p, 0 ≤ livesGet (applyOps s ops) p := by
  induction ops generalizing s with
  | nil => exact hs
  | cons o rest ih => exact ih (livesNonneg_applyOp hs o)

theorem create_game_livesNonneg {raw : List String} {ts0 : Nat} {s0 : GameState}
    (h0 : create_game raw ts0 = .ok s0) : ∀ p, 0 ≤ livesGet s0 p := by
  intro p
  obtain ⟨-, hs0⟩ := create_game_ok h0
  rw [hs0]
  show 0 ≤ alGetD ((cleanPlayers raw).foldl (fun l q => alSet l q 3) []) p 0
  rw [livesInit]
  split
  · decide
  · show (0 : Int) ≤ alGetD ([] : List (String × Int)) p 0
    exact le_refl 0

theorem submitUpdate_resp_fields {s : GameState} {player typed expected : String}
    {elapsed : ℚ} {rp : Option Int} {ts : Nat} {s' : GameState} {r : SubmitResp}
    (h : (s', r) = submitUpdate s player typed expected elapsed rp ts) :
    r.success = checkSuccess typed expected elapsed (rp.getD (s.current_round : Int)) ∧
    r.expected = expected ∧ r.typed = typed ∧
    r.timer = timerFor (rp.getD (s.current_round : Int)) ∧ r.elapsed = elapsed ∧
    r.player = player ∧ r.lives = s'.lives ∧ r.current_round = s'.current_round := by
  have hr : r = (submitUpdate s player typed expected elapsed rp ts).2 := by rw [← h]
  have hs : s' = (submitUpdate s player typed expected elapsed rp ts).1 := by rw [← h]
  rw [hr, hs]
  exact ⟨rfl, rfl, rfl, rfl, rfl, rfl, rfl, rfl⟩

theorem dead_preserved_applyOp {s : GameState} {p : String} (h0 : livesGet s p = 0)
    (o : Op) : livesGet (applyOp s o) p = 0 := by
  cases o with
  | assign pp pick ts =>
    simp only [applyOp]
    cases hres : get_word s pp pick ts with
    | error e => exact h0
    | ok pr =>
      obtain ⟨s2, r⟩ := pr
      have hl := (get_word_preserves hres).1
      show livesGet s2 p = 0
      unfold livesGet
      rw [hl]
      exact h0
  | submit player typed elapsed rp ts =>
    simp only [applyOp]
    cases hres : submit_word s player typed elapsed rp ts with
    | error e => exact h0
    | ok pr =>
      obtain ⟨s2, r⟩ := pr
      obtain ⟨hmem, hpos, expected, hexp, heq⟩ := submit_word_ok hres
      have hs2 := submitUpdate_state heq
      show livesGet s2 p = 0
      rw [hs2, livesGet_maybeAdvance, livesGet_applyOutcome]
      have hnep : p ≠ player := by
        intro he
        rw [he] at h0
        omega
      by_cases hsucc : checkSuccess typed expected elapsed (rp.getD (s.current_round : Int)) = true
      · rw [if_pos hsucc]
        exact h0
      · rw [if_neg hsucc, if_neg hnep]
        exact h0

theorem dead_preserved_applyOps {s : GameState} {p : String} (h0 : livesGet s p = 0)
    (ops : List Op) : livesGet (applyOps s ops) p = 0 := by
  induction ops generalizing s with
  | nil => exact h0
  | cons o rest ih => exact ih (dead_preserved_applyOp h0 o)

/-! Claim theorems. -/

/-- C1 (amended): for every accepted submission, writing s1 for the state
after the life update, the played mark and the word clear, the round
advances exactly when every currently-alive player belongs to
played_this_round (amended from the claimed set equality: a player
eliminated earlier in the round stays in played_this_round, so the played
set can strictly contain the alive set at the moment of an advance).  When
it advances, current_round increments by one, played_this_round and
used_words_in_round are empty afterwards and a round-advance history entry
is appended; otherwise current_round, used_words_in_round and the played
set are unchanged by the advance step. -/
theorem C1_round_advance {s : GameState} {player typed expected : String} {elapsed : ℚ}
    {rp : Option Int} {ts : Nat} {s' : GameState} {r : SubmitResp}
    (hexp : alGet? s.last_assigned_word player = some expected)
    (h : submit_word s player typed elapsed rp ts = .ok (s', r)) :
    ∃ s1, s1 = applyOutcome s player
        (checkSuccess typed expected elapsed (rp.getD (s.current_round : Int))) ∧
      s' = maybeAdvance ts s1 ∧
      (roundComplete s1 = true ↔ ∀ q ∈ aliveList s1, q ∈ s1.played_this_round) ∧
      (roundComplete s1 = true →
        s'.current_round = s.current_round + 1 ∧ s'.played_this_round = [] ∧
        s'.used_words_in_round = [] ∧
        s'.history = s1.history ++ [HistEntry.roundAdvance (s.current_round + 1) ts]) ∧
      (roundComplete s1 = false →
        s'.current_round = s.current_round ∧ s'.played_this_round = s1.played_this_round ∧
        s'.used_words_in_round = s.used_words_in_round ∧ s'.history = s1.history) := by
  obtain ⟨hmem, hpos, expected', hexp', heq⟩ := submit_word_ok h
  rw [hexp] at hexp'
  injection hexp' with hexp'
  subst hexp'
  have hs' := submitUpdate_state heq
  refine ⟨_, rfl, hs', roundComplete_iff _, ?_, ?_⟩
  · intro hrc
    have hadv : maybeAdvance ts (applyOutcome s player
        (checkSuccess typed expected elapsed (rp.getD (s.current_round : Int)))) =
        advanceRound ts (applyOutcome s player
          (checkSuccess typed expected elapsed (rp.getD (s.current_round : Int)))) := by
      unfold maybeAdvance
      rw [hrc]
      exact if_pos rfl
    rw [hs', hadv]
    exact ⟨rfl, rfl, rfl, rfl⟩
  · intro hrc
    have hadv : maybeAdvance ts (applyOutcome s player
        (checkSuccess typed expected elapsed (rp.getD (s.current_round : Int)))) =
        applyOutcome s player
          (checkSuccess typed expected elapsed (rp.getD (s.current_round : Int))) := by
      unfold maybeAdvance
      rw [hrc]
      exact if_neg (by simp)
    rw [hs', hadv]
    exact ⟨rfl, rfl, rfl, rfl⟩

/-- C1 witness: in the fresh two-player game, A submits the assigned word
cat correctly; B has not played, so the round does not advance. -/
theorem C1_round_advance_witness :
    (alGet? c1.last_assigned_word "A" = some "cat") ∧
    (submit_word c1 "A" "cat" 1 none 0 = .ok (w1post, w1resp)) ∧
    (∃ s1, s1 = applyOutcome c1 "A"
        (checkSuccess "cat" "cat" 1 ((none : Option Int).getD (c1.current_round : Int))) ∧
      w1post = maybeAdvance 0 s1 ∧
      (roundComplete s1 = true ↔ ∀ q ∈ aliveList s1, q ∈ s1.played_this_round) ∧
      (roundComplete s1 = true →
        w1post.current_round = c1.current_round + 1 ∧ w1post.played_this_round = [] ∧
        w1post.used_words_in_round = [] ∧
        w1post.history = s1.history ++ [HistEntry.roundAdvance (c1.current_round + 1) 0]) ∧
      (roundComplete s1 = false →
        w1post.current_round = c1.current_round ∧
        w1post.played_this_round = s1.played_this_round ∧
        w1post.used_words_in_round = c1.used_words_in_round ∧
        w1post.history = s1.history)) :=
  ⟨by decide, by decide,
    @C1_round_advance c1 "A" "cat" "cat" 1 none 0 w1post w1resp (by decide) (by decide)⟩

/-- C1 counterexample: in the reachable state c11 (player A eliminated
earlier in round 2 and still recorded in played_this_round), B submits the
assigned word rocket successfully; the submission is accepted and the
round advances although the set of players who played this round, A and B,
is not the set of currently-alive players, which is B alone. -/
theorem C1_counterexample :
    (submit_word c11 "B" "rocket" 1 none 0).isOk = true ∧
    (stepSubmit c11 "B" "rocket" 1).current_round = c11.current_round + 1 ∧
    "A" ∈ (applyOutcome c11 "B"
      (checkSuccess "rocket" "rocket" 1 ((none : Option Int).getD (c11.current_round : Int)))).played_this_round ∧
    "A" ∉ aliveList (applyOutcome c11 "B"
      (checkSuccess "rocket" "rocket" 1 ((none : Option Int).getD (c11.current_round : Int)))) := by
  decide

/-- C2: starting from any created session, lives are nonnegative for every
player after any sequence of word-assignment and submission operations;
moreover an accepted submission whose success flag is false decrements the
submitting player life by exactly 1 from a positive value, and a
submission by a player whose life count is not positive is rejected and
leaves the life count unchanged. -/
theorem C2_lives_nonneg {raw : List String} {ts0 : Nat} {s0 : GameState}
    (h0 : create_game raw ts0 = .ok s0) (ops : List Op) :
    (∀ p, 0 ≤ livesGet (applyOps s0 ops) p) ∧
    (∀ (s : GameState) (player typed : String) (elapsed : ℚ) (rp : Option Int) (ts : Nat)
        (s' : GameState) (r : SubmitResp),
        submit_word s player typed elapsed rp ts = .ok (s', r) → r.success = false →
        0 < livesGet s player ∧ livesGet s' player = livesGet s player - 1) ∧
    (∀ (s : GameState) (player typed : String) (elapsed : ℚ) (rp : Option Int) (ts : Nat),
        livesGet s player ≤ 0 →
        livesGet (applyOp s (.submit player typed elapsed rp ts)) player = livesGet s player) := by
  refine ⟨livesNonneg_applyOps (create_game_livesNonneg h0) ops, ?_, ?_⟩
  · intro s player typed elapsed rp ts s' r hok hfail
    obtain ⟨hmem, hpos, expected, hexp, heq⟩ := submit_word_ok hok
    have hsucc := (submitUpdate_resp_fields heq).1
    rw [hfail] at hsucc
    have hcheck : checkSuccess typed expected elapsed (rp.getD (s.current_round : Int)) = false :=
      hsucc.symm
    have hs' := submitUpdate_state heq
    refine ⟨hpos, ?_⟩
    rw [hs', hcheck, livesGet_maybeAdvance, livesGet_applyOutcome,
      if_neg Bool.false_ne_true, if_pos rfl]
    exact max_eq_right (by omega)
  · intro s player typed elapsed rp ts hdead
    obtain ⟨e, he⟩ := @submit_word_dead s player typed elapsed rp ts hdead
    simp only [applyOp]
    rw [he]

/-- C2 witness: the two-player game with a word assigned to A and a wrong
submission by A instantiates the lives invariant. -/
theorem C2_lives_nonneg_witness :
    (create_game ["A", "B"] 0 = .ok c0) ∧
    ((∀ p, 0 ≤ livesGet (applyOps c0 c2ops) p) ∧
    (∀ (s : GameState) (player typed : String) (elapsed : ℚ) (rp : Option Int) (ts : Nat)
        (s' : GameState) (r : SubmitResp),
        submit_word s player typed elapsed rp ts = .ok (s', r) → r.success = false →
        0 < livesGet s player ∧ livesGet s' player = livesGet s player - 1) ∧
    (∀ (s : GameState) (player typed : String) (elapsed : ℚ) (rp : Option Int) (ts : Nat),
        livesGet s player ≤ 0 →
        livesGet (applyOp s (.submit player typed elapsed rp ts)) player = livesGet s player)) :=
  ⟨by decide, @C2_lives_nonneg ["A", "B"] 0 c0 (by decide) c2ops⟩

/-- C3: a player whose life count is 0 is refused by every subsequent
operation: an explicit word request for that player errors, the
auto-assignment scan never selects the player, a submission by the player
errors (leaving the state unchanged, since only successful requests
produce a new state), and the life count stays 0 under any further
operation sequence, so the player never receives a word or submits again. -/
theorem C3_eliminated {s : GameState} {p : String}
    (h0 : livesGet s p = 0) (ht : pyStrip p = p) (hp : p ≠ "") :
    (∀ pick ts, ∃ e, get_word s (some p) pick ts = Except.error e) ∧
    (∀ pick ts s' r, get_word s none pick ts = .ok (s', r) → r.player ≠ p) ∧
    (∀ typed elapsed rp ts, ∃ e, submit_word s p typed elapsed rp ts = Except.error e) ∧
    (∀ ops : List Op, livesGet (applyOps s ops) p = 0) := by
  refine ⟨?_, ?_, ?_, fun ops => dead_preserved_applyOps h0 ops⟩
  · intro pick ts
    unfold get_word
    by_cases h5 : WORD_POOLS.length ≤ s.current_round
    · rw [if_pos h5]
      exact ⟨_, rfl⟩
    · rw [if_neg h5]
      refine ⟨"Player not valid or eliminated.", ?_⟩
      rw [selectPlayer_some_err hp (Or.inr (by rw [ht]; exact le_of_eq h0))]
  · intro pick ts s' r hok
    obtain ⟨-, hsel, -⟩ := get_word_ok hok
    obtain ⟨ha, -⟩ := selectPlayer_none_ok hsel
    have halive := (autoSelect_alive ha).2
    intro hep
    rw [hep] at halive
    omega
  · intro typed elapsed rp ts
    exact @submit_word_dead s p typed elapsed rp ts (le_of_eq h0)

/-- C3 witness: in the reachable state c10, player A has 0 lives; the
refusals are instantiated there. -/
theorem C3_eliminated_witness :
    (livesGet c10 "A" = 0) ∧ (pyStrip "A" = "A") ∧ ("A" ≠ "") ∧
    ((∀ pick ts, ∃ e, get_word c10 (some "A") pick ts = Except.error e) ∧
     (∀ pick ts s' r, get_word c10 none pick ts = .ok (s', r) → r.player ≠ "A") ∧
     (∀ typed elapsed rp ts, ∃ e, submit_word c10 "A" typed elapsed rp ts = Except.error e) ∧
     (∀ ops : List Op, livesGet (applyOps c10 ops) "A" = 0)) :=
  ⟨by decide, by decide, by decide,
    @C3_eliminated c10 "A" (by decide) (by decide) (by decide)⟩

/-- C4: for every accepted submission the success flag is true exactly when
the stripped, lowercased typed text equals the lowercased expected word and
the elapsed time is at most the timer for the submitted round index, the
timer being the TIMERS entry at that index when in range and the last
entry otherwise; the response echoes that timer. -/
theorem C4_success_condition {s : GameState} {player typed expected : String} {elapsed : ℚ}
    {rp : Option Int} {ts : Nat} {s' : GameState} {r : SubmitResp}
    (hexp : alGet? s.last_assigned_word player = some expected)
    (h : submit_word s player typed elapsed rp ts = .ok (s', r)) :
    (r.success = true ↔
      (pyLower (pyStrip typed) = pyLower expected ∧
       elapsed ≤ timerFor (rp.getD (s.current_round : Int)))) ∧
    r.timer = timerFor (rp.getD (s.current_round : Int)) ∧
    (∀ ri : Int, 0 ≤ ri → ri < (TIMERS.length : Int) → timerFor ri = TIMERS.getD ri.toNat 0) ∧
    (∀ ri : Int, ri < 0 ∨ (TIMERS.length : Int) ≤ ri → timerFor ri = TIMERS.getLastD 0) := by
  obtain ⟨-, -, expected', hexp', heq⟩ := submit_word_ok h
  rw [hexp] at hexp'
  injection hexp' with hexp'
  subst hexp'
  obtain ⟨hsucc, -, -, htimer, -, -, -, -⟩ := submitUpdate_resp_fields heq
  refine ⟨?_, htimer, ?_, ?_⟩
  · rw [hsucc]
    unfold checkSuccess
    simp [Bool.and_eq_true, decide_eq_true_iff]
  · intro ri h1 h2
    unfold timerFor
    rw [if_pos ⟨h1, h2⟩]
  · intro ri h12
    unfold timerFor
    rw [if_neg]
    rintro ⟨ha, hb⟩
    rcases h12 with hlt | hge
    · omega
    · omega

/-- C4 witness: A transcribes cat correctly within the round-0 timer. -/
theorem C4_success_condition_witness :
    (alGet? c1.last_assigned_word "A" = some "cat") ∧
    (submit_word c1 "A" "cat" 1 none 0 = .ok (w1post, w1resp)) ∧
    ((w1resp.success = true ↔
      (pyLower (pyStrip "cat") = pyLower "cat" ∧
       (1 : ℚ) ≤ timerFor ((none : Option Int).getD (c1.current_round : Int)))) ∧
    w1resp.timer = timerFor ((none : Option Int).getD (c1.current_round : Int)) ∧
    (∀ ri : Int, 0 ≤ ri → ri < (TIMERS.length : Int) → timerFor ri = TIMERS.getD ri.toNat 0) ∧
    (∀ ri : Int, ri < 0 ∨ (TIMERS.length : Int) ≤ ri → timerFor ri = TIMERS.getLastD 0)) :=
  ⟨by decide, by decide,
    @C4_success_condition c1 "A" "cat" "cat" 1 none 0 w1post w1resp (by decide) (by decide)⟩

/-- C5: every successful word assignment returns a word of the current
pool; if some pool word was still unused the returned word is not in the
prior used set, and if every pool word was already used the used set is
reset so that afterwards it holds exactly the returned word; the word is
recorded as the player's outstanding word and added to the used set. -/
theorem C5_word_selection {s : GameState} {pp : Option String} {pick ts : Nat}
    {s' : GameState} {r : WordResp} (h : get_word s pp pick ts = .ok (s', r)) :
    r.word ∈ poolOf s ∧
    ((∃ w ∈ poolOf s, w ∉ s.used_words_in_round) → r.word ∉ s.used_words_in_round) ∧
    ((∀ w ∈ poolOf s, w ∈ s.used_words_in_round) → s'.used_words_in_round = [r.word]) ∧
    alGet? s'.last_assigned_word r.player = some r.word ∧
    r.word ∈ s'.used_words_in_round := by
  obtain ⟨h5, -, heq⟩ := get_word_ok h
  have hs : s' = (assignWord s r.player pick ts).1 := by rw [← heq]
  have hr : r = (assignWord s r.player pick ts).2 := by rw [← heq]
  have hw : r.word = choiceOf (drawList s) pick := by
    rw [hr]
    simp [assignWord]
  have hlast : s'.last_assigned_word =
      alSet s.last_assigned_word r.player (choiceOf (drawList s) pick) := by
    rw [hs]
    simp [assignWord]
  have hused : s'.used_words_in_round = sAdd (usedBase s) (choiceOf (drawList s) pick) := by
    rw [hs]
    simp [assignWord]
  have hpool_ne : poolOf s ≠ [] := pools_ne_nil _ h5
  have hdraw_ne : drawList s ≠ [] := by
    unfold drawList
    by_cases hu : (unusedOf s).isEmpty
    · rw [if_pos hu]
      exact hpool_ne
    · rw [if_neg hu]
      intro hnil
      rw [hnil] at hu
      exact hu rfl
  have hmem := choiceOf_mem (drawList s) pick hdraw_ne
  rw [← hw] at hmem
  refine ⟨?_, ?_, ?_, ?_, ?_⟩
  · unfold drawList at hmem
    by_cases hu : (unusedOf s).isEmpty
    · rw [if_pos hu] at hmem
      exact hmem
    · rw [if_neg hu] at hmem
      exact (List.mem_filter.mp hmem).1
  · rintro ⟨w, hwpool, hwunused⟩
    have hu : ¬ (unusedOf s).isEmpty = true := by
      intro hemp
      have hin : w ∈ unusedOf s := by
        unfold unusedOf
        refine List.mem_filter.mpr ⟨hwpool, ?_⟩
        simpa using hwunused
      rw [List.isEmpty_iff] at hemp
      rw [hemp] at hin
      exact absurd hin (List.not_mem_nil w)
    unfold drawList at hmem
    rw [if_neg hu] at hmem
    have hpred := (List.mem_filter.mp hmem).2
    simpa using hpred
  · intro hall
    have hu : (unusedOf s).isEmpty = true := by
      rw [List.isEmpty_iff]
      unfold unusedOf
      rw [List.filter_eq_nil_iff]
      intro w hwpool
      simpa using hall w hwpool
    rw [hused, hw]
    unfold usedBase
    rw [if_pos hu]
    simp [sAdd]
  · rw [hlast, alGet?_alSet, if_pos rfl, hw]
  · rw [hused, hw]
    exact sAdd_mem_self _ _

/-- C5 witness: the first word request for A in the fresh game draws cat
from pool 0, records it for A and marks it used. -/
theorem C5_word_selection_witness :
    (get_word c0 (some "A") 0 0 = .ok (c1, w5resp)) ∧
    (w5resp.word ∈ poolOf c0 ∧
    ((∃ w ∈ poolOf c0, w ∉ c0.used_words_in_round) → w5resp.word ∉ c0.used_words_in_round) ∧
    ((∀ w ∈ poolOf c0, w ∈ c0.used_words_in_round) → c1.used_words_in_round = [w5resp.word]) ∧
    alGet? c1.last_assigned_word w5resp.player = some w5resp.word ∧
    w5resp.word ∈ c1.used_words_in_round) :=
  ⟨by decide, @C5_word_selection c0 (some "A") 0 0 c1 w5resp (by decide)⟩

/-- C6: for the auto-assignment form of the word route in a valid round:
if no player in turn order is alive the request fails with the
no-alive-players error; otherwise the chosen player is the first player in
turn order who is alive and has no outstanding assigned word, or, when
every alive player already holds a word, the first alive player in turn
order; every auto-chosen player is alive and belongs to turn order. -/
theorem C6_auto_selection {s : GameState} (pick ts : Nat)
    (h5 : s.current_round < WORD_POOLS.length) (hne : "" ∉ s.turn_order) :
    ((∀ q ∈ s.turn_order, livesGet s q ≤ 0) →
        get_word s none pick ts = .error "No alive players.") ∧
    (∀ q, s.turn_order.find?
        (fun p => decide (0 < livesGet s p) && (alGet? s.last_assigned_word p).isNone) = some q →
        ∃ s' r, get_word s none pick ts = .ok (s', r) ∧ r.player = q) ∧
    (s.turn_order.find?
        (fun p => decide (0 < livesGet s p) && (alGet? s.last_assigned_word p).isNone) = none →
      ∀ q, s.turn_order.find? (fun p => decide (0 < livesGet s p)) = some q →
        ∃ s' r, get_word s none pick ts = .ok (s', r) ∧ r.player = q) ∧
    (∀ s' r, get_word s none pick ts = .ok (s', r) →
        r.player ∈ s.turn_order ∧ 0 < livesGet s r.player) := by
  have hnotle : ¬ WORD_POOLS.length ≤ s.current_round := not_le.mpr h5
  refine ⟨?_, ?_, ?_, ?_⟩
  · intro hdead
    unfold get_word
    rw [if_neg hnotle, selectPlayer_none_err hdead]
  · intro q hfind
    have hauto : autoSelect s = some q := by
      unfold autoSelect
      rw [hfind]
    have hq : q ≠ "" := fun h => hne (h ▸ List.mem_of_find?_eq_some hfind)
    have hsel : selectPlayer s none = .ok q := by
      show autoOrFail s = .ok q
      unfold autoOrFail
      simp only [hauto]
      rw [if_neg hq]
    refine ⟨(assignWord s q pick ts).1, (assignWord s q pick ts).2, ?_, rfl⟩
    unfold get_word
    rw [if_neg hnotle, hsel]
  · intro hfind1 q hfind2
    have hauto : autoSelect s = some q := by
      unfold autoSelect
      rw [hfind1, hfind2]
    have hq : q ≠ "" := fun h => hne (h ▸ List.mem_of_find?_eq_some hfind2)
    have hsel : selectPlayer s none = .ok q := by
      show autoOrFail s = .ok q
      unfold autoOrFail
      simp only [hauto]
      rw [if_neg hq]
    refine ⟨(assignWord s q pick ts).1, (assignWord s q pick ts).2, ?_, rfl⟩
    unfold get_word
    rw [if_neg hnotle, hsel]
  · intro s' r hok
    obtain ⟨-, hsel, -⟩ := get_word_ok hok
    obtain ⟨ha, -⟩ := selectPlayer_none_ok hsel
    exact autoSelect_alive ha

/-- C6 witness: in the fresh two-player game the auto-assignment picks A,
the first alive player without an outstanding word. -/
theorem C6_auto_selection_witness :
    (c0.current_round < WORD_POOLS.length) ∧ ("" ∉ c0.turn_order) ∧
    (((∀ q ∈ c0.turn_order, livesGet c0 q ≤ 0) →
        get_word c0 none 0 0 = .error "No alive players.") ∧
    (∀ q, c0.turn_order.find?
        (fun p => decide (0 < livesGet c0 p) && (alGet? c0.last_assigned_word p).isNone) = some q →
        ∃ s' r, get_word c0 none 0 0 = .ok (s', r) ∧ r.player = q) ∧
    (c0.turn_order.find?
        (fun p => decide (0 < livesGet c0 p) && (alGet? c0.last_assigned_word p).isNone) = none →
      ∀ q, c0.turn_order.find? (fun p => decide (0 < livesGet c0 p)) = some q →
        ∃ s' r, get_word c0 none 0 0 = .ok (s', r) ∧ r.player = q) ∧
    (∀ s' r, get_word c0 none 0 0 = .ok (s', r) →
        r.player ∈ c0.turn_order ∧ 0 < livesGet c0 r.player)) :=
  ⟨by decide, by decide, @C6_auto_selection c0 0 0 (by decide) (by decide)⟩

/-- C7 (amended): session creation strips the input names and discards
empty entries, fails exactly when the cleaned list is empty, and otherwise
produces a session with 3 lives per player, round 0, empty transient
fields and turn order equal to the player list; the stored players
sequence is the cleaned input list as given, which may contain duplicate
names (amended: no per-session uniqueness is enforced by the code). -/
theorem C7_create (raw : List String) (ts : Nat) :
    (cleanPlayers raw = [] → create_game raw ts = .error "No players given.") ∧
    (cleanPlayers raw ≠ [] → ∃ s, create_game raw ts = .ok s ∧
       s.players = cleanPlayers raw ∧
       (∀ p ∈ s.players, livesGet s p = 3) ∧
       s.current_round = 0 ∧ s.played_this_round = [] ∧ s.last_assigned_word = [] ∧
       s.used_words_in_round = [] ∧ s.turn_order = s.players ∧ s.history = [] ∧
       s.created_at = ts) := by
  constructor
  · intro hnil
    simp only [create_game]
    rw [if_pos (List.isEmpty_iff.mpr hnil)]
  · intro hnn
    refine ⟨{ players := cleanPlayers raw,
              lives := (cleanPlayers raw).foldl (fun l p => alSet l p 3) [],
              current_round := 0, turn_order := cleanPlayers raw, played_this_round := [],
              last_assigned_word := [], used_words_in_round := [], history := [],
              created_at := ts }, ?_, rfl, ?_, rfl, rfl, rfl, rfl, rfl, rfl, rfl⟩
    · simp only [create_game]
      rw [if_neg (fun hemp => hnn (List.isEmpty_iff.mp hemp))]
    · intro p hp
      show alGetD ((cleanPlayers raw).foldl (fun l q => alSet l q 3) []) p 0 = 3
      rw [livesInit, if_pos hp]

/-- C7 witness: a roster with one padded name and one empty entry creates
a one-player session with the stripped name. -/
theorem C7_create_witness :
    (cleanPlayers [" A ", ""] ≠ []) ∧
    (∃ s, create_game [" A ", ""] 7 = .ok s ∧
       s.players = cleanPlayers [" A ", ""] ∧
       (∀ p ∈ s.players, livesGet s p = 3) ∧
       s.current_round = 0 ∧ s.played_this_round = [] ∧ s.last_assigned_word = [] ∧
       s.used_words_in_round = [] ∧ s.turn_order = s.players ∧ s.history = [] ∧
       s.created_at = 7) :=
  ⟨by decide, (C7_create [" A ", ""] 7).2 (by decide)⟩

/-- C7 counterexample: creating a session from the duplicated roster A, A
succeeds and stores the players sequence with both copies, so the stored
sequence is not duplicate-free. -/
theorem C7_counterexample :
    create_game ["A", "A"] 0 = Except.ok c7dup ∧ ¬ c7dup.players.Nodup := by decide

/-- C8: when current_round is at least the number of pools, every word
request returns the no-more-rounds error and the stored table is
unchanged; a word request succeeds only when current_round indexes a
pool. -/
theorem C8_no_more_rounds {s : GameState} (pp : Option String) (pick ts : Nat)
    {st : Store} {gid : String} (hload : loadGame st gid = some s) :
    (WORD_POOLS.length ≤ s.current_round →
        get_word s pp pick ts = .error "No more rounds." ∧
        (get_wordH st gid pp pick ts).1 = st) ∧
    (∀ s' r, get_word s pp pick ts = .ok (s', r) → s.current_round < WORD_POOLS.length) := by
  constructor
  · intro hge
    have herr : get_word s pp pick ts = .error "No more rounds." := by
      unfold get_word
      rw [if_pos hge]
    refine ⟨herr, ?_⟩
    unfold get_wordH
    rw [hload]
    show (runSave st gid (get_word s pp pick ts)).1 = st
    rw [herr]
    rfl
  · intro s' r hok
    exact (get_word_ok hok).1

/-- C8 witness: the exhausted one-player game at round 5 refuses a word
request and its table row is untouched. -/
theorem C8_no_more_rounds_witness :
    (loadGame stExhaust "g" = some cExhaust) ∧
    (WORD_POOLS.length ≤ cExhaust.current_round) ∧
    (get_word cExhaust none 0 0 = .error "No more rounds." ∧
     (get_wordH stExhaust "g" none 0 0).1 = stExhaust) :=
  ⟨by decide, by decide,
    (@C8_no_more_rounds cExhaust none 0 0 stExhaust "g" (by decide)).1 (by decide)⟩

/-- C9: the status and history routes are read-only projections: for a
stored session they return the roster with lives and round, and the
ordered history log, with the table unchanged; for a missing id they
fail with the not-found error, also leaving the table unchanged. -/
theorem C9_status_history (st : Store) (gid : String) :
    (loadGame st gid = none →
        statusH st gid = (st, .error "Game not found.") ∧
        historyH st gid = (st, .error "Game not found.")) ∧
    (∀ s, loadGame st gid = some s →
        statusH st gid = (st, .ok (statusOf s)) ∧
        statusOf s = { players := s.players, lives := s.lives,
                       current_round := s.current_round } ∧
        historyH st gid = (st, .ok s.history)) ∧
    (statusH st gid).1 = st ∧ (historyH st gid).1 = st := by
  refine ⟨?_, ?_, ?_, ?_⟩
  · intro hnone
    unfold statusH historyH
    rw [hnone]
    exact ⟨rfl, rfl⟩
  · intro s hsome
    unfold statusH historyH
    rw [hsome]
    exact ⟨rfl, rfl, rfl⟩
  · unfold statusH
    cases loadGame st gid <;> rfl
  · unfold historyH
    cases loadGame st gid <;> rfl

/-- C9 witness: status and history of the stored fresh game project its
fields, and a missing id errors. -/
theorem C9_status_history_witness :
    (loadGame st0 "g" = some c0) ∧
    (statusH st0 "g" = (st0, .ok (statusOf c0)) ∧
     statusOf c0 = { players := c0.players, lives := c0.lives,
                     current_round := c0.current_round } ∧
     historyH st0 "g" = (st0, .ok c0.history)) ∧
    (loadGame st0 "h" = none) ∧
    (statusH st0 "h" = (st0, .error "Game not found.") ∧
     historyH st0 "h" = (st0, .error "Game not found.")) :=
  ⟨by decide, (C9_status_history st0 "g").2.1 c0 (by decide),
   by decide, (C9_status_history st0 "h").1 (by decide)⟩

/-- C10: a word or submission request that returns an error leaves the
stored table unchanged: every error branch returns before any save, so
failed requests are atomic. -/
theorem C10_error_atomicity (st : Store) (gid : String) (pp : Option String) (pick ts : Nat)
    (player typed : String) (elapsed : ℚ) (rp : Option Int) (ts2 : Nat) :
    (∀ e, (get_wordH st gid pp pick ts).2 = .error e → (get_wordH st gid pp pick ts).1 = st) ∧
    (∀ e, (submit_wordH st gid player typed elapsed rp ts2).2 = .error e →
        (submit_wordH st gid player typed elapsed rp ts2).1 = st) := by
  constructor
  · intro e he
    unfold get_wordH at he ⊢
    cases hload : loadGame st gid with
    | none => rfl
    | some s =>
      show (runSave st gid (get_word s pp pick ts)).1 = st
      rw [hload] at he
      replace he : (runSave st gid (get_word s pp pick ts)).2 = .error e := he
      cases hres : get_word s pp pick ts with
      | error e2 => rfl
      | ok pr =>
        obtain ⟨s2, r⟩ := pr
        rw [hres] at he
        exact absurd he (by simp [runSave, saveGame])
  · intro e he
    unfold submit_wordH at he ⊢
    cases hload : loadGame st gid with
    | none => rfl
    | some s =>
      show (runSave st gid (submit_word s player typed elapsed rp ts2)).1 = st
      rw [hload] at he
      replace he : (runSave st gid (submit_word s player typed elapsed rp ts2)).2 = .error e := he
      cases hres : submit_word s player typed elapsed rp ts2 with
      | error e2 => rfl
      | ok pr =>
        obtain ⟨s2, r⟩ := pr
        rw [hres] at he
        exact absurd he (by simp [runSave, saveGame])

/-- C10 witness: requests against a missing session id error and leave the
empty table empty. -/
theorem C10_error_atomicity_witness :
    ((get_wordH ([] : Store) "g" none 0 0).2 = .error "Game not found.") ∧
    ((get_wordH ([] : Store) "g" none 0 0).1 = ([] : Store)) ∧
    ((submit_wordH ([] : Store) "g" "A" "x" 1 none 0).2 = .error "Game not found.") ∧
    ((submit_wordH ([] : Store) "g" "A" "x" 1 none 0).1 = ([] : Store)) :=
  ⟨by decide,
   (C10_error_atomicity ([] : Store) "g" none 0 0 "A" "x" 1 none 0).1
     "Game not found." (by decide),
   by decide,
   (C10_error_atomicity ([] : Store) "g" none 0 0 "A" "x" 1 none 0).2
     "Game not found." (by decide)⟩

end WordGame
